import Mathlib

/-!
Shallow embedding of the `snippets` Django application: the soft-delete user
model, snippet model, audit log, the `AuditLogMixin`, and the REST view
methods from `snippets/views.py`, `snippets/mixins.py`, `snippets/models.py`,
`snippets/admin.py` and `snippets/serializers.py`.

The database is modelled as in-memory lists of rows; each view-level method
becomes a Lean function returning the outcome (success or raised API error),
the database after the call, and the trace of persistence events (saves,
deletes, audit writes) in the order the Python code performs them.
-/

namespace Snippets

/-- Action choices of `AuditLog.ACTION_CHOICES` in `models.py`. -/
inductive Action where
  | create
  | update
  | destroy
deriving Repr, DecidableEq

/-- A row of the `SoftDeleteUser` model (`models.py`): username, staff flag,
soft-delete flag and the nullable `deleted_at` timestamp (modelled as `Option Nat`). -/
structure UserRec where
  id : Nat
  username : String
  is_staff : Bool
  is_active : Bool
  is_deleted : Bool
  deleted_at : Option Nat
deriving Repr, DecidableEq

/-- A row of the `Snippet` model (`models.py`). -/
structure SnippetRec where
  id : Nat
  title : String
  code : String
  linenos : Bool
  language : String
  style : String
  ownerId : Nat
  highlighted : String
deriving Repr, DecidableEq

/-- A row of the `AuditLog` model (`models.py`): acting user (nullable FK),
`model_name` (the mutated instance's class name), `object_id` (its pk) and
the action kind. -/
structure AuditEntry where
  userId : Option Nat
  model_name : String
  object_id : Nat
  action : Action
deriving Repr, DecidableEq

/-- The persistent store: rows of the three models. -/
structure DB where
  users : List UserRec
  snippets : List SnippetRec
  audits : List AuditEntry
deriving Repr, DecidableEq

/-- API errors raised by the views: DRF `PermissionDenied`, `ValidationError`
and the 404 raised when `get_object` finds nothing. -/
inductive ApiError where
  | permissionDenied (msg : String)
  | validationError (msg : String)
  | notFound
deriving Repr, DecidableEq

/-- Persistence events, recorded in the order the Python code performs them:
a model save, a hard delete, or an audit-log write. -/
inductive Event where
  | save (model : String) (objId : Nat)
  | del (model : String) (objId : Nat)
  | audit (entry : AuditEntry)
deriving Repr, DecidableEq

/-- Outcome of a view-level call: the returned value or raised error, the
database after the call, and the trace of persistence events. -/
abbrev ViewResult (α : Type) := Except ApiError α × DB × List Event

/-- An incoming request as the views see it: `request.user` (its pk,
authentication status and `is_staff` flag) and the `include_deleted` query
parameter (absent or its raw string value). -/
structure Request where
  userId : Nat
  isAuthenticated : Bool
  is_staff : Bool
  includeDeleted : Option String
deriving Repr, DecidableEq

/-- Python's `str.lower()` as used on the `include_deleted` query parameter
(character-by-character lowercasing). -/
def strToLower (s : String) : String := ⟨s.data.map Char.toLower⟩

/-- Insert-or-update keyed by `key`: Django's `save()` updates the existing
row in place when one with the same pk exists, otherwise inserts. -/
def upsertBy {α : Type} (key : α → Nat) (l : List α) (a : α) : List α :=
  if l.any (fun x => key x == key a) then
    l.map (fun x => if key x == key a then a else x)
  else
    l ++ [a]

def DB.upsertUser (db : DB) (u : UserRec) : DB :=
  { db with users := upsertBy UserRec.id db.users u }

def DB.upsertSnippet (db : DB) (s : SnippetRec) : DB :=
  { db with snippets := upsertBy SnippetRec.id db.snippets s }

def DB.findUser (db : DB) (pk : Nat) : Option UserRec :=
  db.users.find? (fun u => u.id == pk)

def DB.findSnippet (db : DB) (pk : Nat) : Option SnippetRec :=
  db.snippets.find? (fun s => s.id == pk)

/-- Hard delete of a snippet row (Django `instance.delete()` on `Snippet`,
which has no overridden delete). -/
def DB.deleteSnippet (db : DB) (pk : Nat) : DB :=
  { db with snippets := db.snippets.filter (fun s => !(s.id == pk)) }

/-! ## models.py -/

/-- `Snippet.save` (`models.py` lines 31-43): recompute `highlighted` from the
current `code`, `language`, `style`, `linenos` and `title` via pygments
(modelled by the function parameter `hl`), then persist the row. Returns the
database after the save and the saved instance. -/
def Snippet.save (hl : String → String → String → Bool → String → String)
    (db : DB) (s : SnippetRec) : DB × SnippetRec :=
  let s' := { s with
    highlighted := hl s.code s.language s.style s.linenos s.title }
  (db.upsertSnippet s', s')

/-- `SoftDeleteUser.delete` (`models.py` lines 54-57): set `is_deleted := true`,
stamp `deleted_at := now`, and save; the row is never removed. -/
def SoftDeleteUser.delete (now : Nat) (db : DB) (u : UserRec) : DB × UserRec :=
  let u' := { u with is_deleted := true, deleted_at := some now }
  (db.upsertUser u', u')

/-! ## mixins.py — AuditLogMixin -/

/-- `AuditLogMixin.log_action` (`mixins.py` lines 9-24): try to create one
`AuditLog` row for the given user, instance and action; any failure of the
write (modelled by `auditOk = false`) is logged locally and re-raised as a
`ValidationError`, never swallowed. -/
def log_action (auditOk : Bool) (userId : Option Nat) (modelName : String)
    (objId : Nat) (action : Action) (db : DB) : ViewResult Unit :=
  if auditOk then
    let e : AuditEntry :=
      { userId := userId, model_name := modelName, object_id := objId, action := action }
    (Except.ok (), { db with audits := db.audits ++ [e] }, [Event.audit e])
  else
    (Except.error (ApiError.validationError
      "An error occurred while logging the action"), db, [])

/-- The result of `serializer.save()` / `super().save_model(...)`: either the
database after the save together with the saved instance's class name and pk,
or a failure (`none`, an arbitrary exception in the Python). -/
abbrev SerializerSave := DB → Option (DB × String × Nat)

/-- `AuditLogMixin.perform_create` (`mixins.py` lines 51-63): save the
instance via the serializer, then log a `create` action for it; any exception
is re-raised as a `ValidationError`. -/
def AuditLogMixin.perform_create (auditOk : Bool) (reqUserId : Nat)
    (serializerSave : SerializerSave) (db : DB) : ViewResult Nat :=
  match serializerSave db with
  | none =>
      (Except.error (ApiError.validationError
        "An error occurred while creating the instance"), db, [])
  | some (db1, modelName, pk) =>
      match log_action auditOk (some reqUserId) modelName pk Action.create db1 with
      | (Except.ok _, db2, tr) =>
          (Except.ok pk, db2, Event.save modelName pk :: tr)
      | (Except.error _, db2, tr) =>
          (Except.error (ApiError.validationError
            "An error occurred while creating the instance"), db2,
           Event.save modelName pk :: tr)

/-- `AuditLogMixin.perform_update` (`mixins.py` lines 65-77): save the
instance via the serializer, then log an `update` action for it; any
exception is re-raised as a `ValidationError`. -/
def AuditLogMixin.perform_update (auditOk : Bool) (reqUserId : Nat)
    (serializerSave : SerializerSave) (db : DB) : ViewResult Nat :=
  match serializerSave db with
  | none =>
      (Except.error (ApiError.validationError
        "An error occurred while updating the instance"), db, [])
  | some (db1, modelName, pk) =>
      match log_action auditOk (some reqUserId) modelName pk Action.update db1 with
      | (Except.ok _, db2, tr) =>
          (Except.ok pk, db2, Event.save modelName pk :: tr)
      | (Except.error _, db2, tr) =>
          (Except.error (ApiError.validationError
            "An error occurred while updating the instance"), db2,
           Event.save modelName pk :: tr)

/-- `AuditLogMixin.perform_destroy` (`mixins.py` lines 79-90): log a
`destroy` action for the instance FIRST, then call `instance.delete()`; any
exception is re-raised as a `ValidationError`. -/
def AuditLogMixin.perform_destroy (auditOk : Bool) (reqUserId : Nat)
    (modelName : String) (pk : Nat) (instanceDelete : DB → DB)
    (db : DB) : ViewResult Unit :=
  match log_action auditOk (some reqUserId) modelName pk Action.destroy db with
  | (Except.ok _, db1, tr) =>
      (Except.ok (), instanceDelete db1, tr ++ [Event.del modelName pk])
  | (Except.error _, db1, tr) =>
      (Except.error (ApiError.validationError
        "An error occurred while destroying the instance"), db1, tr)

/-- `AuditLogMixin.save_model` (`mixins.py` lines 26-36), the admin save hook:
the action is `create` when the object has no pk yet, `update` otherwise;
the save runs first, then `log_action`. -/
def AuditLogMixin.save_model (auditOk : Bool) (reqUserId : Nat)
    (objPk : Option Nat) (serializerSave : SerializerSave)
    (db : DB) : ViewResult Nat :=
  let action := if objPk.isNone then Action.create else Action.update
  match serializerSave db with
  | none =>
      (Except.error (ApiError.validationError
        "An error occurred while saving the model"), db, [])
  | some (db1, modelName, pk) =>
      match log_action auditOk (some reqUserId) modelName pk action db1 with
      | (Except.ok _, db2, tr) =>
          (Except.ok pk, db2, Event.save modelName pk :: tr)
      | (Except.error _, db2, tr) =>
          (Except.error (ApiError.validationError
            "An error occurred while saving the model"), db2,
           Event.save modelName pk :: tr)

/-- `AuditLogMixin.delete_model` (`mixins.py` lines 38-49), the admin delete
hook: log the `destroy` action FIRST, then call `super().delete_model` (the
hard delete); any exception is re-raised as a `ValidationError`. -/
def AuditLogMixin.delete_model (auditOk : Bool) (reqUserId : Nat)
    (modelName : String) (pk : Nat) (hardDelete : DB → DB)
    (db : DB) : ViewResult Unit :=
  match log_action auditOk (some reqUserId) modelName pk Action.destroy db with
  | (Except.ok _, db1, tr) =>
      (Except.ok (), hardDelete db1, tr ++ [Event.del modelName pk])
  | (Except.error _, db1, tr) =>
      (Except.error (ApiError.validationError
        "An error occurred while deleting the model"), db1, tr)

/-! ## views.py -/

/-- The serializer save used by `SnippetList.perform_create`
(`serializer.save(owner=self.request.user)`): sets the owner from the request
and runs `Snippet.save`, which recomputes `highlighted`. `saveOk = false`
models the save raising. -/
def snippetSerializerCreate (hl : String → String → String → Bool → String → String)
    (saveOk : Bool) (ownerId : Nat) (s : SnippetRec) : SerializerSave :=
  fun db =>
    if saveOk then
      let (db1, s') := Snippet.save hl db { s with ownerId := ownerId }
      some (db1, "Snippet", s'.id)
    else none

/-- The serializer save for a snippet update (`serializer.save()` inside
`AuditLogMixin.perform_update`): persists the updated instance through
`Snippet.save`. -/
def snippetSerializerSave (hl : String → String → String → Bool → String → String)
    (saveOk : Bool) (s : SnippetRec) : SerializerSave :=
  fun db =>
    if saveOk then
      let (db1, s') := Snippet.save hl db s
      some (db1, "Snippet", s'.id)
    else none

/-- The serializer save for a user create/update (`serializer.save()`):
`SoftDeleteUser` has no overridden `save`, so the row is persisted as-is. -/
def userSerializerSave (saveOk : Bool) (u : UserRec) : SerializerSave :=
  fun db => if saveOk then some (db.upsertUser u, "SoftDeleteUser", u.id) else none

/-- `SnippetList.perform_create` (`views.py` lines 46-56): save the new
snippet with the requester as owner, then `log_action(user, instance,
"create")`; any exception is re-raised as a `ValidationError`. -/
def SnippetList.perform_create
    (hl : String → String → String → Bool → String → String)
    (saveOk auditOk : Bool) (req : Request) (s : SnippetRec)
    (db : DB) : ViewResult Nat :=
  match snippetSerializerCreate hl saveOk req.userId s db with
  | none =>
      (Except.error (ApiError.validationError
        "An error occurred while creating the snippet"), db, [])
  | some (db1, modelName, pk) =>
      match log_action auditOk (some req.userId) modelName pk Action.create db1 with
      | (Except.ok _, db2, tr) =>
          (Except.ok pk, db2, Event.save modelName pk :: tr)
      | (Except.error _, db2, tr) =>
          (Except.error (ApiError.validationError
            "An error occurred while creating the snippet"), db2,
           Event.save modelName pk :: tr)

/-- `SnippetDetail.perform_update` (`views.py` lines 70-77): delegate to
`AuditLogMixin.perform_update`, re-wrapping any exception as a
`ValidationError` with the view's own message. -/
def SnippetDetail.perform_update
    (hl : String → String → String → Bool → String → String)
    (saveOk auditOk : Bool) (req : Request) (s : SnippetRec)
    (db : DB) : ViewResult Nat :=
  match AuditLogMixin.perform_update auditOk req.userId
      (snippetSerializerSave hl saveOk s) db with
  | (Except.ok pk, db1, tr) => (Except.ok pk, db1, tr)
  | (Except.error _, db1, tr) =>
      (Except.error (ApiError.validationError
        "An error occurred while updating the snippet"), db1, tr)

/-- `SnippetDetail.perform_destroy` (`views.py` lines 79-86): delegate to
`AuditLogMixin.perform_destroy` (which logs, then hard-deletes the snippet),
re-wrapping any exception as a `ValidationError`. -/
def SnippetDetail.perform_destroy (auditOk : Bool) (req : Request) (pk : Nat)
    (db : DB) : ViewResult Unit :=
  match AuditLogMixin.perform_destroy auditOk req.userId "Snippet" pk
      (fun d => d.deleteSnippet pk) db with
  | (Except.ok u, db1, tr) => (Except.ok u, db1, tr)
  | (Except.error _, db1, tr) =>
      (Except.error (ApiError.validationError
        "An error occurred while deleting the snippet"), db1, tr)

/-- `UserList.get_queryset` (`views.py` lines 107-125): normalise the
`include_deleted` query parameter (default `"false"`, lowercased), reject any
value other than `"true"`/`"false"` with a `ValidationError`; staff with
`include_deleted=true` get all rows, everyone else only `is_deleted=false`
rows. -/
def UserList.get_queryset (req : Request) (db : DB) : Except ApiError (List UserRec) :=
  let includeDeleted := strToLower (req.includeDeleted.getD "false")
  if includeDeleted ≠ "true" ∧ includeDeleted ≠ "false" then
    Except.error (ApiError.validationError
      "Invalid value for include_deleted. Must be true or false.")
  else
    let incl := includeDeleted == "true"
    if req.is_staff && incl then Except.ok db.users
    else Except.ok (db.users.filter (fun u => !u.is_deleted))

/-- The `GET /users/` request as dispatched by DRF: the permission classes
`[IsAuthenticated, IsAdminUser]` (`views.py` line 104) run first — the caller
must be authenticated and staff — then `UserList.get_queryset` builds the
row set. -/
def UserList.listUsers (req : Request) (db : DB) : Except ApiError (List UserRec) :=
  if !req.isAuthenticated then
    Except.error (ApiError.permissionDenied "Authentication credentials were not provided.")
  else if !req.is_staff then
    Except.error (ApiError.permissionDenied "You do not have permission to perform this action.")
  else
    UserList.get_queryset req db

/-- `UserList.perform_create` (`views.py` lines 127-139): reject non-staff
with `PermissionDenied`, otherwise `serializer.save()` — note that unlike the
mixin's `perform_create`, NO audit-log entry is written. -/
def UserList.perform_create (saveOk : Bool) (req : Request) (u : UserRec)
    (db : DB) : ViewResult Nat :=
  if !req.is_staff then
    (Except.error (ApiError.permissionDenied
      "You do not have permission to create a new user."), db, [])
  else
    match userSerializerSave saveOk u db with
    | none =>
        (Except.error (ApiError.validationError
          "An error occurred while creating the user"), db, [])
    | some (db1, modelName, pk) =>
        (Except.ok pk, db1, [Event.save modelName pk])

/-- `UserDetail.get_queryset` (`views.py` lines 151-166): for staff,
`include_deleted` is the parameter lowercased compared to `"true"` (any other
value, valid or not, counts as false — no validation); for non-staff it is
forced to false. Never raises for any parameter value. -/
def UserDetail.get_queryset (req : Request) (db : DB) : Except ApiError (List UserRec) :=
  let incl :=
    if req.is_staff then strToLower (req.includeDeleted.getD "false") == "true"
    else false
  if incl then Except.ok db.users
  else Except.ok (db.users.filter (fun u => !u.is_deleted))

/-- The `GET /users/{pk}/` request: the `IsAuthenticated` permission runs
first, then DRF's `get_object` looks the pk up in `UserDetail.get_queryset`
and raises 404 when no visible row matches. -/
def UserDetail.retrieve (req : Request) (pk : Nat) (db : DB) :
    Except ApiError UserRec :=
  if !req.isAuthenticated then
    Except.error (ApiError.permissionDenied "Authentication credentials were not provided.")
  else
    match UserDetail.get_queryset req db with
    | Except.error e => Except.error e
    | Except.ok qs =>
        match qs.find? (fun u => u.id == pk) with
        | some u => Except.ok u
        | none => Except.error ApiError.notFound

/-- `UserDetail.perform_update` (`views.py` lines 168-175): reject non-staff
with `PermissionDenied`, otherwise delegate to `AuditLogMixin.perform_update`
(save, then log `update`), re-wrapping other exceptions as
`ValidationError`. -/
def UserDetail.perform_update (saveOk auditOk : Bool) (req : Request)
    (u : UserRec) (db : DB) : ViewResult Nat :=
  if !req.is_staff then
    (Except.error (ApiError.permissionDenied
      "You do not have permission to update this user."), db, [])
  else
    match AuditLogMixin.perform_update auditOk req.userId
        (userSerializerSave saveOk u) db with
    | (Except.ok pk, db1, tr) => (Except.ok pk, db1, tr)
    | (Except.error _, db1, tr) =>
        (Except.error (ApiError.validationError
          "An unexpected error occurred"), db1, tr)

/-- `UserDetail.perform_destroy` (`views.py` lines 177-198): reject non-staff
and already-soft-deleted users with `PermissionDenied`; otherwise set
`is_deleted := true` (note: `deleted_at` is NOT touched — the view does not
call the model's `delete`), save, then log a `destroy` action.
`PermissionDenied` is re-raised as-is; other exceptions become
`ValidationError`. -/
def UserDetail.perform_destroy (auditOk : Bool) (req : Request) (u : UserRec)
    (db : DB) : ViewResult Unit :=
  if !req.is_staff then
    (Except.error (ApiError.permissionDenied
      "You do not have permission to delete this user."), db, [])
  else if u.is_deleted then
    (Except.error (ApiError.permissionDenied
      "This user is already soft-deleted."), db, [])
  else
    let u' := { u with is_deleted := true }
    let db1 := db.upsertUser u'
    match log_action auditOk (some req.userId) "SoftDeleteUser" u.id Action.destroy db1 with
    | (Except.ok _, db2, tr) =>
        (Except.ok (), db2, Event.save "SoftDeleteUser" u.id :: tr)
    | (Except.error _, db2, tr) =>
        (Except.error (ApiError.validationError
          "An unexpected error occurred"), db2,
         Event.save "SoftDeleteUser" u.id :: tr)

/-! ## admin.py -/

/-- `SnippetSerializer.Meta.fields` (`serializers.py` lines 14-26): the
serializer's field list — `highlighted` is absent (only the `highlight`
hyperlink is exposed). -/
def SnippetSerializer.fields : List String :=
  ["url", "id", "highlight", "title", "code", "linenos", "language", "style", "owner"]

/-- `SnippetAdmin.readonly_fields` (`admin.py` line 12). -/
def SnippetAdmin.readonly_fields : List String := ["highlighted"]

/-- `CustomUserAdmin.soft_delete_users` (`admin.py` lines 65-73): for each
user of the selection, if `is_deleted` is false set it to true, save, and log
one `destroy` action; users already soft-deleted are skipped silently. A
failing audit write propagates out of the loop. -/
def CustomUserAdmin.soft_delete_users (auditOk : Bool) (reqUserId : Nat)
    (queryset : List UserRec) (db : DB) : ViewResult Unit :=
  match queryset with
  | [] => (Except.ok (), db, [])
  | u :: rest =>
      if !u.is_deleted then
        let u' := { u with is_deleted := true }
        let db1 := db.upsertUser u'
        match log_action auditOk (some reqUserId) "SoftDeleteUser" u.id Action.destroy db1 with
        | (Except.ok _, db2, tr) =>
            let r2 := CustomUserAdmin.soft_delete_users auditOk reqUserId rest db2
            (r2.1, r2.2.1, Event.save "SoftDeleteUser" u.id :: (tr ++ r2.2.2))
        | (Except.error e, db2, tr) =>
            (Except.error e, db2, Event.save "SoftDeleteUser" u.id :: tr)
      else
        CustomUserAdmin.soft_delete_users auditOk reqUserId rest db

/-! ## Helper lemmas -/

theorem find?_map_of_any {α : Type} (key : α → Nat) (a : α) (l : List α)
    (h : l.any (fun x => key x == key a) = true) :
    (l.map (fun x => if key x == key a then a else x)).find?
      (fun x => key x == key a) = some a := by
  induction l with
  | nil => simp at h
  | cons x xs ih =>
      cases hx : (key x == key a) with
      | true =>
          rw [List.map_cons, if_pos hx]
          exact List.find?_cons_of_pos _ (beq_self_eq_true (key a))
      | false =>
          simp only [List.any_cons, hx, Bool.false_or] at h
          rw [List.map_cons, if_neg (by simp [hx]),
            List.find?_cons_of_neg _ (by simp [hx])]
          exact ih h

theorem find?_append_of_not_any {α : Type} (key : α → Nat) (a : α) (l : List α)
    (h : l.any (fun x => key x == key a) = false) :
    (l ++ [a]).find? (fun x => key x == key a) = some a := by
  induction l with
  | nil =>
      rw [List.nil_append]
      exact List.find?_cons_of_pos _ (beq_self_eq_true (key a))
  | cons x xs ih =>
      simp only [List.any_cons, Bool.or_eq_false_iff] at h
      rw [List.cons_append, List.find?_cons_of_neg _ (by simp [h.1])]
      exact ih h.2

/-- After an insert-or-update, looking the key up finds the stored value. -/
theorem find?_upsertBy {α : Type} (key : α → Nat) (l : List α) (a : α) :
    (upsertBy key l a).find? (fun x => key x == key a) = some a := by
  unfold upsertBy
  cases h : l.any (fun x => key x == key a) with
  | true => rw [if_pos rfl]; exact find?_map_of_any key a l h
  | false => rw [if_neg (by simp)]; exact find?_append_of_not_any key a l h

theorem DB.findUser_upsertUser (db : DB) (u : UserRec) :
    (db.upsertUser u).findUser u.id = some u :=
  find?_upsertBy UserRec.id db.users u

theorem DB.findSnippet_upsertSnippet (db : DB) (s : SnippetRec) :
    (db.upsertSnippet s).findSnippet s.id = some s :=
  find?_upsertBy SnippetRec.id db.snippets s

/-! ## Concrete fixtures -/

/-- A staff request with no `include_deleted` parameter. -/
def staffReq : Request :=
  { userId := 1, isAuthenticated := true, is_staff := true, includeDeleted := none }

def rootUser : UserRec :=
  { id := 1, username := "root", is_staff := true, is_active := true,
    is_deleted := false, deleted_at := none }

def aliceUser : UserRec :=
  { id := 2, username := "alice", is_staff := false, is_active := true,
    is_deleted := false, deleted_at := none }

def bobDeleted : UserRec :=
  { id := 3, username := "bob", is_staff := false, is_active := true,
    is_deleted := true, deleted_at := some 5 }

def exampleSnippet : SnippetRec :=
  { id := 10, title := "t", code := "print(1)", linenos := false,
    language := "python", style := "friendly", ownerId := 2, highlighted := "h" }

def exampleDb : DB :=
  { users := [rootUser, aliceUser, bobDeleted],
    snippets := [exampleSnippet], audits := [] }

/-! ## Claim theorems -/

/-- C9: for every save of a Snippet, the `highlighted` field is recomputed
from the current `code`, `language`, `style`, `linenos` and `title` values
before the row is persisted (the persisted row carries exactly that
recomputation, for any highlighting function), `highlighted` is absent from
the REST serializer's writable fields, and it is read-only in the admin. -/
theorem highlighted_always_recomputed
    (hl : String → String → String → Bool → String → String)
    (db : DB) (s : SnippetRec) :
    (Snippet.save hl db s).2.highlighted =
      hl s.code s.language s.style s.linenos s.title ∧
    (Snippet.save hl db s).1.findSnippet s.id = some (Snippet.save hl db s).2 ∧
    "highlighted" ∉ SnippetSerializer.fields ∧
    "highlighted" ∈ SnippetAdmin.readonly_fields := by
  refine ⟨rfl, ?_, by decide, by decide⟩
  exact DB.findSnippet_upsertSnippet db _

/-- C5: a destroy request on a User whose `is_deleted` flag is already true is
rejected with a `PermissionDenied` error (a permission/conflict error), the
database is unchanged, and no persistence event happens — the repeated
soft-delete is never silently accepted. -/
theorem destroy_already_deleted_rejected (auditOk : Bool) (req : Request)
    (u : UserRec) (db : DB) (hdel : u.is_deleted = true) :
    (∃ msg, (UserDetail.perform_destroy auditOk req u db).1 =
      Except.error (ApiError.permissionDenied msg)) ∧
    (UserDetail.perform_destroy auditOk req u db).2.1 = db ∧
    (UserDetail.perform_destroy auditOk req u db).2.2 = [] := by
  cases hstaff : req.is_staff with
  | false =>
      refine ⟨⟨"You do not have permission to delete this user.", ?_⟩, ?_, ?_⟩ <;>
        simp [UserDetail.perform_destroy, hstaff]
  | true =>
      refine ⟨⟨"This user is already soft-deleted.", ?_⟩, ?_, ?_⟩ <;>
        simp [UserDetail.perform_destroy, hstaff, hdel]

/-- Witness for C5 at a concrete input: the staff request destroying the
already soft-deleted user `bobDeleted` is rejected and changes nothing. -/
theorem destroy_already_deleted_rejected_witness :
    (∃ msg, (UserDetail.perform_destroy true staffReq bobDeleted exampleDb).1 =
      Except.error (ApiError.permissionDenied msg)) ∧
    (UserDetail.perform_destroy true staffReq bobDeleted exampleDb).2.1 = exampleDb ∧
    (UserDetail.perform_destroy true staffReq bobDeleted exampleDb).2.2 = [] :=
  destroy_already_deleted_rejected true staffReq bobDeleted exampleDb rfl

/-- C6: a non-staff caller's create, update or destroy of a User record is
always rejected with a `PermissionDenied` (forbidden) error, the database is
unchanged, and no persistence event happens; hence these operations succeed
only for staff callers. -/
theorem nonstaff_user_mutations_forbidden (saveOk auditOk : Bool) (rid : Nat)
    (auth : Bool) (param : Option String) (u v w : UserRec) (db : DB) :
    UserList.perform_create saveOk ⟨rid, auth, false, param⟩ u db =
      (Except.error (ApiError.permissionDenied
        "You do not have permission to create a new user."), db, []) ∧
    UserDetail.perform_update saveOk auditOk ⟨rid, auth, false, param⟩ v db =
      (Except.error (ApiError.permissionDenied
        "You do not have permission to update this user."), db, []) ∧
    UserDetail.perform_destroy auditOk ⟨rid, auth, false, param⟩ w db =
      (Except.error (ApiError.permissionDenied
        "You do not have permission to delete this user."), db, []) := by
  refine ⟨?_, ?_, ?_⟩ <;>
    simp [UserList.perform_create, UserDetail.perform_update,
      UserDetail.perform_destroy]

/-- C8: a failing audit write inside `log_action` is re-raised as a
`ValidationError` (first conjunct), and every audited view mutation whose
audit write fails ends in an error rather than appearing to succeed
unaudited (remaining conjuncts). -/
theorem audit_failure_never_swallowed
    (hl : String → String → String → Bool → String → String)
    (userId : Option Nat) (modelName : String) (objId : Nat) (action : Action)
    (rid : Nat) (auth : Bool) (param : Option String)
    (s t : SnippetRec) (v w : UserRec) (db : DB) :
    log_action false userId modelName objId action db =
      (Except.error (ApiError.validationError
        "An error occurred while logging the action"), db, []) ∧
    (SnippetList.perform_create hl true false ⟨rid, auth, true, param⟩ s db).1 =
      Except.error (ApiError.validationError
        "An error occurred while creating the snippet") ∧
    (SnippetDetail.perform_update hl true false ⟨rid, auth, true, param⟩ t db).1 =
      Except.error (ApiError.validationError
        "An error occurred while updating the snippet") ∧
    (SnippetDetail.perform_destroy false ⟨rid, auth, true, param⟩ s.id db).1 =
      Except.error (ApiError.validationError
        "An error occurred while deleting the snippet") ∧
    (UserDetail.perform_update true false ⟨rid, auth, true, param⟩ v db).1 =
      Except.error (ApiError.validationError "An unexpected error occurred") ∧
    (UserDetail.perform_destroy false ⟨rid, auth, true, param⟩
        { w with is_deleted := false } db).1 =
      Except.error (ApiError.validationError "An unexpected error occurred") := by
  refine ⟨?_, ?_, ?_, ?_, ?_, ?_⟩ <;>
    simp [log_action, SnippetList.perform_create, snippetSerializerCreate,
      SnippetDetail.perform_update, AuditLogMixin.perform_update,
      snippetSerializerSave, SnippetDetail.perform_destroy,
      AuditLogMixin.perform_destroy, UserDetail.perform_update,
      userSerializerSave, UserDetail.perform_destroy, Snippet.save]

/-- Counterexample to C1: a successful User create through the REST API
(`UserList.perform_create`, staff caller, save succeeds) creates NO AuditLog
entry — the override saves via the serializer without calling `log_action`,
so "exactly one AuditLog entry" fails for this mutation. -/
theorem user_create_writes_no_audit_cex :
    (UserList.perform_create true staffReq
      { id := 4, username := "carol", is_staff := false, is_active := true,
        is_deleted := false, deleted_at := none } exampleDb).1 = Except.ok 4 ∧
    (UserList.perform_create true staffReq
      { id := 4, username := "carol", is_staff := false, is_active := true,
        is_deleted := false, deleted_at := none } exampleDb).2.1.audits = [] := by
  refine ⟨rfl, rfl⟩

/-- C1 as amended: every successful Snippet create/update/destroy and User
update/destroy through the REST API appends exactly one AuditLog entry whose
`model_name`, `object_id`, `action` and `user` match the mutated instance and
the acting user — but a successful User create through the REST API appends
none. -/
theorem audit_log_per_rest_mutation
    (hl : String → String → String → Bool → String → String)
    (rid : Nat) (auth : Bool) (param : Option String)
    (s t : SnippetRec) (u v w : UserRec) (pk : Nat) (db : DB) :
    ((SnippetList.perform_create hl true true ⟨rid, auth, true, param⟩ s db).1 =
        Except.ok s.id ∧
      (SnippetList.perform_create hl true true ⟨rid, auth, true, param⟩ s db).2.1.audits =
        db.audits ++ [⟨some rid, "Snippet", s.id, Action.create⟩]) ∧
    ((SnippetDetail.perform_update hl true true ⟨rid, auth, true, param⟩ t db).1 =
        Except.ok t.id ∧
      (SnippetDetail.perform_update hl true true ⟨rid, auth, true, param⟩ t db).2.1.audits =
        db.audits ++ [⟨some rid, "Snippet", t.id, Action.update⟩]) ∧
    ((SnippetDetail.perform_destroy true ⟨rid, auth, true, param⟩ pk db).1 =
        Except.ok () ∧
      (SnippetDetail.perform_destroy true ⟨rid, auth, true, param⟩ pk db).2.1.audits =
        db.audits ++ [⟨some rid, "Snippet", pk, Action.destroy⟩]) ∧
    ((UserDetail.perform_update true true ⟨rid, auth, true, param⟩ v db).1 =
        Except.ok v.id ∧
      (UserDetail.perform_update true true ⟨rid, auth, true, param⟩ v db).2.1.audits =
        db.audits ++ [⟨some rid, "SoftDeleteUser", v.id, Action.update⟩]) ∧
    ((UserDetail.perform_destroy true ⟨rid, auth, true, param⟩
        { w with is_deleted := false } db).1 = Except.ok () ∧
      (UserDetail.perform_destroy true ⟨rid, auth, true, param⟩
        { w with is_deleted := false } db).2.1.audits =
        db.audits ++ [⟨some rid, "SoftDeleteUser", w.id, Action.destroy⟩]) ∧
    ((UserList.perform_create true ⟨rid, auth, true, param⟩ u db).1 =
        Except.ok u.id ∧
      (UserList.perform_create true ⟨rid, auth, true, param⟩ u db).2.1.audits =
        db.audits) := by
  refine ⟨⟨?_, ?_⟩, ⟨?_, ?_⟩, ⟨?_, ?_⟩, ⟨?_, ?_⟩, ⟨?_, ?_⟩, ⟨?_, ?_⟩⟩ <;>
    simp [SnippetList.perform_create, snippetSerializerCreate, log_action,
      SnippetDetail.perform_update, AuditLogMixin.perform_update,
      snippetSerializerSave, SnippetDetail.perform_destroy,
      AuditLogMixin.perform_destroy, UserDetail.perform_update,
      userSerializerSave, UserDetail.perform_destroy,
      UserList.perform_create, Snippet.save, DB.upsertUser, DB.upsertSnippet,
      DB.deleteSnippet]

/-- Counterexample to C3: a successful REST snippet destroy
(`SnippetDetail.perform_destroy`, which delegates to
`AuditLogMixin.perform_destroy`) writes the audit entry BEFORE the delete it
records: its event trace is the audit write followed by the delete. -/
theorem mixin_destroy_logs_before_delete_cex :
    (SnippetDetail.perform_destroy true staffReq 10 exampleDb).1 = Except.ok () ∧
    (SnippetDetail.perform_destroy true staffReq 10 exampleDb).2.2 =
      [Event.audit ⟨some 1, "Snippet", 10, Action.destroy⟩,
       Event.del "Snippet" 10] := by
  refine ⟨rfl, rfl⟩

/-- C3 as amended: the create and update paths and the user soft-delete
destroy paths write the audit entry only after the save it records, but the
generic mixin destroy paths (`AuditLogMixin.perform_destroy`, used by the
REST snippet destroy, and `AuditLogMixin.delete_model`, the admin hard
delete) write the audit entry before the delete. -/
theorem audit_write_ordering
    (hl : String → String → String → Bool → String → String)
    (rid : Nat) (auth : Bool) (param : Option String)
    (s t : SnippetRec) (v w : UserRec) (pk : Nat) (db : DB) :
    (SnippetList.perform_create hl true true ⟨rid, auth, true, param⟩ s db).2.2 =
      [Event.save "Snippet" s.id,
       Event.audit ⟨some rid, "Snippet", s.id, Action.create⟩] ∧
    (SnippetDetail.perform_update hl true true ⟨rid, auth, true, param⟩ t db).2.2 =
      [Event.save "Snippet" t.id,
       Event.audit ⟨some rid, "Snippet", t.id, Action.update⟩] ∧
    (UserDetail.perform_update true true ⟨rid, auth, true, param⟩ v db).2.2 =
      [Event.save "SoftDeleteUser" v.id,
       Event.audit ⟨some rid, "SoftDeleteUser", v.id, Action.update⟩] ∧
    (UserDetail.perform_destroy true ⟨rid, auth, true, param⟩
        { w with is_deleted := false } db).2.2 =
      [Event.save "SoftDeleteUser" w.id,
       Event.audit ⟨some rid, "SoftDeleteUser", w.id, Action.destroy⟩] ∧
    (AuditLogMixin.save_model true rid (some pk) (userSerializerSave true v) db).2.2 =
      [Event.save "SoftDeleteUser" v.id,
       Event.audit ⟨some rid, "SoftDeleteUser", v.id, Action.update⟩] ∧
    (SnippetDetail.perform_destroy true ⟨rid, auth, true, param⟩ pk db).2.2 =
      [Event.audit ⟨some rid, "Snippet", pk, Action.destroy⟩,
       Event.del "Snippet" pk] ∧
    (AuditLogMixin.delete_model true rid "Snippet" pk
        (fun d => d.deleteSnippet pk) db).2.2 =
      [Event.audit ⟨some rid, "Snippet", pk, Action.destroy⟩,
       Event.del "Snippet" pk] := by
  refine ⟨?_, ?_, ?_, ?_, ?_, ?_, ?_⟩ <;>
    simp [SnippetList.perform_create, snippetSerializerCreate, log_action,
      SnippetDetail.perform_update, AuditLogMixin.perform_update,
      snippetSerializerSave, SnippetDetail.perform_destroy,
      AuditLogMixin.perform_destroy, AuditLogMixin.save_model,
      AuditLogMixin.delete_model, UserDetail.perform_update,
      userSerializerSave, UserDetail.perform_destroy, Snippet.save]

/-- Lowercasing evaluates as expected on the two accepted values. -/
theorem strToLower_true : strToLower "true" = "true" := rfl

/-- Counterexample to C2: destroying the active user `aliceUser`
(`deleted_at = none`) through the REST endpoint succeeds and leaves the
stored row with `deleted_at` still `none` — the REST destroy path never
stamps `deleted_at`, contrary to the claim. -/
theorem rest_destroy_leaves_deleted_at_cex :
    (UserDetail.perform_destroy true staffReq aliceUser exampleDb).1 =
      Except.ok () ∧
    (UserDetail.perform_destroy true staffReq aliceUser exampleDb).2.1.findUser 2 =
      some { aliceUser with is_deleted := true } ∧
    ({ aliceUser with is_deleted := true } : UserRec).deleted_at = none := by
  refine ⟨rfl, rfl, rfl⟩

/-- C2 as amended: destroying a User never removes the row — after a REST
destroy the record still exists with `is_deleted = true` and `deleted_at`
unchanged (the REST path does not stamp it), and a subsequent staff fetch
with `include_deleted=true` still returns it; the model's `delete` method
additionally stamps `deleted_at` to the deletion time, again keeping the
row. -/
theorem user_destroy_soft_delete (rid : Nat) (param : Option String)
    (u : UserRec) (db : DB) (now : Nat) :
    ((UserDetail.perform_destroy true ⟨rid, true, true, param⟩
        { u with is_deleted := false } db).1 = Except.ok ()) ∧
    ((UserDetail.perform_destroy true ⟨rid, true, true, param⟩
        { u with is_deleted := false } db).2.1.findUser u.id =
      some { u with is_deleted := true }) ∧
    (({ u with is_deleted := true } : UserRec).deleted_at = u.deleted_at) ∧
    (UserDetail.retrieve ⟨rid, true, true, some "true"⟩ u.id
        ((UserDetail.perform_destroy true ⟨rid, true, true, param⟩
          { u with is_deleted := false } db).2.1) =
      Except.ok { u with is_deleted := true }) ∧
    ((SoftDeleteUser.delete now db u).2 =
      { u with is_deleted := true, deleted_at := some now }) ∧
    ((SoftDeleteUser.delete now db u).1.findUser u.id =
      some { u with is_deleted := true, deleted_at := some now }) := by
  refine ⟨rfl, ?_, rfl, ?_, rfl, ?_⟩
  · exact find?_upsertBy UserRec.id db.users { u with is_deleted := true }
  · show UserDetail.retrieve ⟨rid, true, true, some "true"⟩ u.id
      { users := upsertBy UserRec.id db.users { u with is_deleted := true },
        snippets := db.snippets,
        audits := db.audits ++
          [⟨some rid, "SoftDeleteUser", u.id, Action.destroy⟩] } =
      Except.ok { u with is_deleted := true }
    unfold UserDetail.retrieve UserDetail.get_queryset
    simp only [strToLower_true, Option.getD, Bool.not_true, beq_self_eq_true,
      if_true, Bool.false_eq_true, if_false]
    rw [find?_upsertBy UserRec.id db.users { u with is_deleted := true }]
  · exact find?_upsertBy UserRec.id db.users
      { u with is_deleted := true, deleted_at := some now }

/-- C4: whenever the user-list endpoint returns rows, the caller is an
authenticated staff user (so a non-staff caller never receives any rows,
soft-deleted or not, regardless of the flag); a returned row with
`is_deleted = true` is only possible when `include_deleted` lowercases to
`"true"`; with that flag the response is all rows, and without it only the
`is_deleted = false` rows. -/
theorem user_list_visibility (req : Request) (db : DB) (us : List UserRec)
    (hok : UserList.listUsers req db = Except.ok us) :
    (req.isAuthenticated = true ∧ req.is_staff = true) ∧
    (∀ u ∈ us, u.is_deleted = true →
      strToLower (req.includeDeleted.getD "false") = "true") ∧
    (strToLower (req.includeDeleted.getD "false") = "true" → us = db.users) ∧
    (strToLower (req.includeDeleted.getD "false") ≠ "true" →
      us = db.users.filter (fun u => !u.is_deleted)) := by
  have hauth : req.isAuthenticated = true := by
    by_contra hc
    rw [Bool.not_eq_true] at hc
    simp [UserList.listUsers, hc] at hok
  have hstaff : req.is_staff = true := by
    by_contra hc
    rw [Bool.not_eq_true] at hc
    simp [UserList.listUsers, hauth, hc] at hok
  simp only [UserList.listUsers, hauth, hstaff, Bool.not_true,
    Bool.false_eq_true, if_false] at hok
  by_cases hvt : strToLower (req.includeDeleted.getD "false") = "true"
  · simp only [UserList.get_queryset, hvt, hstaff] at hok
    rw [if_neg (by simp)] at hok
    simp only [beq_self_eq_true, Bool.and_true, if_true,
      Except.ok.injEq] at hok
    exact ⟨⟨hauth, hstaff⟩, fun u _ _ => hvt, fun _ => hok.symm,
      fun hne => absurd hvt hne⟩
  · by_cases hvf : strToLower (req.includeDeleted.getD "false") = "false"
    · simp only [UserList.get_queryset, hvf] at hok
      rw [if_neg (by simp)] at hok
      simp only [show (("false" : String) == "true") = false from rfl,
        Bool.and_false, Bool.false_eq_true, if_false, Except.ok.injEq] at hok
      subst hok
      refine ⟨⟨hauth, hstaff⟩, ?_, fun ht => absurd ht hvt, fun _ => rfl⟩
      intro u hu hdel
      rcases List.mem_filter.mp hu with ⟨_, hkeep⟩
      rw [hdel] at hkeep
      simp at hkeep
    · simp only [UserList.get_queryset] at hok
      rw [if_pos ⟨hvt, hvf⟩] at hok
      exact absurd hok (by simp)

/-- Witness for C4: an authenticated staff caller with `include_deleted=true`
on the example database receives all rows (and the other conclusions hold). -/
theorem user_list_visibility_witness :
    (true = true ∧ true = true) ∧
    (∀ u ∈ exampleDb.users, u.is_deleted = true →
      strToLower ((some "true").getD "false") = "true") ∧
    (strToLower ((some "true").getD "false") = "true" →
      exampleDb.users = exampleDb.users) ∧
    (strToLower ((some "true").getD "false") ≠ "true" →
      exampleDb.users = exampleDb.users.filter (fun u => !u.is_deleted)) :=
  user_list_visibility ⟨1, true, true, some "true"⟩ exampleDb exampleDb.users rfl

/-- Counterexample to C7: a staff request to the user-detail endpoint whose
`include_deleted` value `"yes"` lowercases to neither `"true"` nor `"false"`
is NOT rejected: `UserDetail.get_queryset` silently treats it as false and
returns the non-deleted rows. -/
theorem detail_invalid_include_deleted_cex :
    UserDetail.get_queryset ⟨1, true, true, some "yes"⟩ exampleDb =
      Except.ok [rootUser, aliceUser] := by
  rfl

/-- C7 as amended: an `include_deleted` value whose lowercase form is neither
`"true"` nor `"false"` makes the user-list endpoint fail with a validation
error, but the user-detail endpoint performs no such validation and silently
treats the value as false, returning only non-deleted rows. -/
theorem include_deleted_validation (req : Request) (db : DB)
    (hbad : strToLower (req.includeDeleted.getD "false") ≠ "true" ∧
      strToLower (req.includeDeleted.getD "false") ≠ "false") :
    UserList.get_queryset req db =
      Except.error (ApiError.validationError
        "Invalid value for include_deleted. Must be true or false.") ∧
    UserDetail.get_queryset req db =
      Except.ok (db.users.filter (fun u => !u.is_deleted)) := by
  constructor
  · simp only [UserList.get_queryset]
    rw [if_pos hbad]
  · have hne : (strToLower (req.includeDeleted.getD "false") == "true") = false := by
      simp [hbad.1]
    cases hstaff : req.is_staff with
    | true => simp [UserDetail.get_queryset, hstaff, hne]
    | false => simp [UserDetail.get_queryset, hstaff]

/-- Witness for C7 (amended): the value `"nope"` is rejected by the list
endpoint with a validation error and silently treated as false by the detail
endpoint. -/
theorem include_deleted_validation_witness :
    UserList.get_queryset ⟨1, true, true, some "nope"⟩ exampleDb =
      Except.error (ApiError.validationError
        "Invalid value for include_deleted. Must be true or false.") ∧
    UserDetail.get_queryset ⟨1, true, true, some "nope"⟩ exampleDb =
      Except.ok (exampleDb.users.filter (fun u => !u.is_deleted)) :=
  include_deleted_validation ⟨1, true, true, some "nope"⟩ exampleDb (by decide)

/-- The audit entry `soft_delete_users` writes for one selected user. -/
def destroyEntry (rid : Nat) (u : UserRec) : AuditEntry :=
  { userId := some rid, model_name := "SoftDeleteUser", object_id := u.id,
    action := Action.destroy }

/-- The effect of one `soft_delete_users` loop iteration on the user table:
users already soft-deleted are left untouched, others are saved with the
flag set. -/
def softDeleteStep (us : List UserRec) (u : UserRec) : List UserRec :=
  if u.is_deleted then us else upsertBy UserRec.id us { u with is_deleted := true }

theorem soft_delete_users_run (rid : Nat) (qs : List UserRec) (db : DB) :
    (CustomUserAdmin.soft_delete_users true rid qs db).1 = Except.ok () ∧
    (CustomUserAdmin.soft_delete_users true rid qs db).2.1.audits =
      db.audits ++ (qs.filter (fun x => !x.is_deleted)).map (destroyEntry rid) ∧
    (CustomUserAdmin.soft_delete_users true rid qs db).2.1.users =
      qs.foldl softDeleteStep db.users := by
  induction qs generalizing db with
  | nil => exact ⟨rfl, by simp [CustomUserAdmin.soft_delete_users],
      by simp [CustomUserAdmin.soft_delete_users]⟩
  | cons u rest ih =>
      cases hd : u.is_deleted with
      | true =>
          have heq : CustomUserAdmin.soft_delete_users true rid (u :: rest) db =
              CustomUserAdmin.soft_delete_users true rid rest db := by
            simp [CustomUserAdmin.soft_delete_users, hd]
          obtain ⟨h1, h2, h3⟩ := ih db
          rw [heq]
          refine ⟨h1, by rw [h2]; simp [hd, destroyEntry],
            by rw [h3]; simp [List.foldl_cons, softDeleteStep, hd]⟩
      | false =>
          obtain ⟨h1, h2, h3⟩ := ih
            { users := upsertBy UserRec.id db.users { u with is_deleted := true },
              snippets := db.snippets,
              audits := db.audits ++ [destroyEntry rid u] }
          refine ⟨?_, ?_, ?_⟩ <;>
            simp only [CustomUserAdmin.soft_delete_users, hd, Bool.not_false,
              if_true, log_action, DB.upsertUser, destroyEntry] at h1 h2 h3 ⊢ <;>
            simp [h1, h2, h3, List.foldl_cons, softDeleteStep, hd, destroyEntry]

/-- C10: the admin bulk action `soft_delete_users` (audit writes succeeding)
never raises, appends exactly one `destroy` AuditLog entry for each selected
user whose `is_deleted` flag was false, updates exactly those users by
setting the flag and saving, and skips users whose flag is already true
silently — contributing no audit entry and no change (in particular,
prepending an already-deleted user to the selection leaves the run's result
completely unchanged). -/
theorem admin_soft_delete_users_spec (rid : Nat) (qs rest : List UserRec)
    (u : UserRec) (db : DB) :
    (CustomUserAdmin.soft_delete_users true rid qs db).1 = Except.ok () ∧
    (CustomUserAdmin.soft_delete_users true rid qs db).2.1.audits =
      db.audits ++ (qs.filter (fun x => !x.is_deleted)).map (destroyEntry rid) ∧
    (CustomUserAdmin.soft_delete_users true rid qs db).2.1.users =
      qs.foldl softDeleteStep db.users ∧
    CustomUserAdmin.soft_delete_users true rid
        ({ u with is_deleted := true } :: rest) db =
      CustomUserAdmin.soft_delete_users true rid rest db := by
  obtain ⟨h1, h2, h3⟩ := soft_delete_users_run rid qs db
  exact ⟨h1, h2, h3, by simp [CustomUserAdmin.soft_delete_users]⟩

end Snippets
